import Mathlib

set_option linter.unusedVariables false

/-! Shallow embedding of `apps/bandwagon/views.py` (add-on collection views):
the data model, the vote toggle, the access guard, the listing filters and
the alter/delete handlers, followed by proofs of the documented properties.
External collaborators that are not part of the source file (the `acl`
module, `BaseFilter`, the ORM models, the forms) are modelled from the
specification and marked as such in their doc comments. -/

/-- Canonical URLs produced by `reverse` and `get_url_path`. -/
inductive Url where
  | collectionDetail (username slug : String)
  | userListing (username : String)
  | ajaxList (addonId : Int)
  | editContributors (username slug : String)
deriving DecidableEq, Repr

/-- The responses a view can produce. -/
inductive Resp where
  | render
  | httpOk
  | forbidden
  | badRequest
  | notFound
  | methodNotAllowed
  | redirect (u : Url)
deriving DecidableEq, Repr

/-- A registered identity making requests; anonymous requests are stopped by
`login_required` before reaching the handlers modelled here. -/
structure Identity where
  userId : Nat
  isAdmin : Bool
deriving DecidableEq, Repr

/-- A `Collection` row, restricted to the fields these views read. -/
structure Collection where
  id : Nat
  owner : Nat
  contributors : List Nat
  authorNickname : String
  slug : String
  uuid : String
  nickname : String
  listed : Bool
  type : Nat
  weekly_subscribers : Int
  rating : Int
  created : Int
  addons : List Int
deriving DecidableEq, Repr

/-- A `CollectionVote` row. -/
structure VoteRec where
  user : Nat
  collection : Nat
  vote : Int
deriving DecidableEq, Repr

/-- An `Addon` row, restricted to the fields the add-on filter reads
(`collectionaddon_created` models `collectionaddon__created`, the timestamp
of the membership row joined by the `added` sort). -/
structure Addon where
  id : Int
  name : String
  weekly_downloads : Int
  collectionaddon_created : Int
deriving DecidableEq, Repr

/-- A `CollectionAddon` membership row; `comments` is nullable. -/
structure CollectionAddonRec where
  collection_id : Nat
  addon_id : Int
  comments : Option String
deriving DecidableEq, Repr

/-- Modelled from the spec: `Collection.get_url_path` (models.py is not in
src); the canonical page of a collection is identified by the owner nickname
together with the slug. -/
def get_url_path (c : Collection) : Url :=
  .collectionDetail c.authorNickname c.slug

/-- Modelled from the spec: `acl.check_collection_ownership` (the access app
is not in src).  Ownership is satisfied by the creating identity or, when
`require_owner` is false, by any listed contributor; an administrative
capability bypasses the ownership check entirely. -/
def check_collection_ownership (ident : Identity) (c : Collection)
    (require_owner : Bool) : Bool :=
  ident.isAdmin || ident.userId == c.owner ||
    (!require_owner && c.contributors.contains ident.userId)

/-- `request.POST[key]` lookup; `none` models the absent key, whose direct
indexing raises in Python. -/
def post_lookup (post : List (String × String)) (key : String) :
    Option String :=
  (post.find? (fun p => p.1 == key)).map (fun p => p.2)

/-- Decimal digit accumulation for `str_to_int`; a non-digit character makes
the whole parse fail. -/
def digitsToNat (acc : Nat) : List Char → Option Nat
  | [] => some acc
  | ch :: rest =>
    if ch.isDigit then digitsToNat (acc * 10 + (ch.toNat - 48)) rest
    else none

/-- The coercion Python's `int()` applies to a posted primary key: an
optionally negative decimal string; any other shape raises `ValueError`,
modelled by `none`. -/
def str_to_int (s : String) : Option Int :=
  match s.toList with
  | [] => none
  | '-' :: rest =>
    if rest.isEmpty then none
    else (digitsToNat 0 rest).map (fun n => -(n : Int))
  | l => (digitsToNat 0 l).map (fun n => (n : Int))

/-- Insertion into a list sorted by the boolean comparison `le`. -/
def insertSorted (le : α → α → Bool) (a : α) : List α → List α
  | [] => [a]
  | b :: bs => if le a b then a :: b :: bs else b :: insertSorted le a bs

/-- A sort by a boolean comparison, modelling the ORM `order_by`. -/
def sortBy (le : α → α → Bool) (l : List α) : List α :=
  l.foldr (insertSorted le) []

/-- `order_by` on a descending integer key (a `-field` ordering). -/
def orderByDesc (f : α → Int) (l : List α) : List α :=
  sortBy (fun a b => decide (f b ≤ f a)) l

/-- `order_by` on an ascending integer key. -/
def orderByAsc (f : α → Int) (l : List α) : List α :=
  sortBy (fun a b => decide (f a ≤ f b)) l

/-- Modelled from the spec: `amo.COLLECTION_FEATURED` (the amo package is not
in src), the enumerated featured collection type; the numeral is immaterial,
only its identity is compared. -/
def COLLECTION_FEATURED : Nat := 4

/-- The `CollectionFilter.opts` sort keys, in source order. -/
def CollectionFilter_opts : List String :=
  ["featured", "popular", "rating", "created"]

/-- `CollectionFilter.filter` (views.py lines 84-93), branch for branch; note
that the second branch tests the key `followers`, not `popular`. -/
def CollectionFilter_filter (base : List Collection) (field : String) :
    List Collection :=
  if field = "featured" then base.filter (fun c => c.type == COLLECTION_FEATURED)
  else if field = "followers" then orderByDesc (fun c => c.weekly_subscribers) base
  else if field = "rating" then orderByDesc (fun c => c.rating) base
  else orderByDesc (fun c => c.created) base

/-- Modelled from the spec: `BaseFilter` (addons.views, not in src) resolves
the requested sort key and falls back to the declared default for keys
outside the filter's `opts`. -/
def BaseFilter_options (opts : List String) (requested : Option String)
    (dflt : String) : String :=
  match requested with
  | some k => if opts.contains k then k else dflt
  | none => dflt

/-- The sort pipeline of `collection_listing` (views.py line 101), whose
declared default key is `popular`. -/
def collection_listing_filter (base : List Collection)
    (requested : Option String) : List Collection :=
  CollectionFilter_filter base
    (BaseFilter_options CollectionFilter_opts requested "popular")

/-- The `CollectionAddonFilter.opts` sort keys, in source order. -/
def CollectionAddonFilter_opts : List String := ["added", "popular", "name"]

/-- Modelled from the spec: `order_by_translation` (translations.query, not
in src) orders by the localized display name. -/
def order_by_translation (base : List Addon) : List Addon :=
  sortBy (fun a b => decide (a.name ≤ b.name)) base

/-- `CollectionAddonFilter.filter` (views.py lines 130-137); an unrecognized
field falls off the if/elif chain, that is, returns Python `None`. -/
def CollectionAddonFilter_filter (base : List Addon) (field : String) :
    Option (List Addon) :=
  if field = "added" then
    some (orderByAsc (fun a => a.collectionaddon_created) base)
  else if field = "name" then some (order_by_translation base)
  else if field = "popular" then
    some (orderByDesc (fun a => a.weekly_downloads) base)
  else none

/-- The add-on sort pipeline of `collection_detail` (views.py line 147),
whose declared default key is `popular`. -/
def collection_detail_filter (base : List Addon) (requested : Option String) :
    Option (List Addon) :=
  CollectionAddonFilter_filter base
    (BaseFilter_options CollectionAddonFilter_opts requested "popular")

/-- The lookup key chosen by `legacy_redirect` (views.py line 59): nicknames
are limited to 30 characters, so a length of 36 implies a uuid. -/
def legacy_key (s : String) : String :=
  if s.length = 36 then "uuid" else "nickname"

/-- The field comparison used by the chosen lookup key. -/
def lookup_by (key : String) (c : Collection) (value : String) : Bool :=
  if key = "uuid" then c.uuid == value else c.nickname == value

/-- `legacy_redirect` (views.py lines 57-61): resolve by uuid or nickname
according to the length heuristic and redirect to the collection's current
URL; no match is a 404. -/
def legacy_redirect (cols : List Collection) (s : String) : Resp :=
  match cols.find? (fun c => lookup_by (legacy_key s) c s) with
  | none => .notFound
  | some c => .redirect (get_url_path c)

/-- A Python dict insert-or-replace step on an association list. -/
def dictSet (m : List (Int × String)) (k : Int) (v : String) :
    List (Int × String) :=
  if m.any (fun p => p.1 == k) then
    m.map (fun p => if p.1 == k then (k, v) else p)
  else m ++ [(k, v)]

/-- `get_notes` (views.py lines 174-182): a generator, here the list of its
yielded values, that selects the membership rows of the collection carrying
a non-null comment, builds the addon-id-to-comment dict, and yields it
once. -/
def get_notes (table : List CollectionAddonRec) (coll : Nat) :
    List (List (Int × String)) :=
  let notes :=
    table.filter (fun r => r.collection_id == coll && r.comments.isSome)
  [notes.foldl (fun rv r => dictSet rv r.addon_id (r.comments.getD "")) []]

/-- The direction table of views.py line 191; indexing it outside `up` and
`down` raises `KeyError`, modelled by `none`. -/
def vote_values : List (String × Int) := [("up", 1), ("down", -1)]

/-- The dictionary access on `vote_values`. -/
def voteDict (d : String) : Option Int :=
  (vote_values.find? (fun p => p.1 == d)).map (fun p => p.2)

/-- Does a vote row belong to the given (user, collection) pair? -/
def matchesPair (u c : Nat) (r : VoteRec) : Bool :=
  r.user == u && r.collection == c

/-- Update the first row satisfying `p`, modelling a `save()` of the row the
ORM `get` fetched. -/
def updateFirst (p : α → Bool) (f : α → α) : List α → List α
  | [] => []
  | r :: rs => if p r then f r :: rs else r :: updateFirst p f rs

/-- The state change of `collection_vote` (views.py lines 192-200):
`get_or_create` with the direction value as default, after which a repeated
vote deletes the fetched row and an opposite vote updates it in place. -/
def voteStep (votes : List VoteRec) (u c : Nat) (v : Int) : List VoteRec :=
  match votes.find? (matchesPair u c) with
  | none => votes ++ [⟨u, c, v⟩]
  | some cv =>
    if cv.vote == v then votes.eraseP (matchesPair u c)
    else updateFirst (matchesPair u c) (fun r => { r with vote := v }) votes

/-- `collection_vote` (views.py lines 185-205), acting on the resolved
collection: a non-POST request redirects with the store untouched; a POST
maps the direction through the vote table (`KeyError` outside up and down),
applies the toggle step, and answers an empty 200 to ajax requests or a
redirect otherwise. -/
def collection_vote (votes : List VoteRec) (user : Nat) (c : Collection)
    (method direction : String) (ajax : Bool) :
    Except String (List VoteRec × Resp) :=
  if method ≠ "POST" then .ok (votes, .redirect (get_url_path c))
  else
    match voteDict direction with
    | none => .error "KeyError"
    | some v =>
      .ok (voteStep votes user c.id v,
           if ajax then .httpOk else .redirect (get_url_path c))

/-- The `owner_required` decorator (views.py lines 36-54) around a view body:
forbidden unless `check_collection_ownership` accepts with the given
`require_owner`. -/
def owner_required (require_owner : Bool)
    (body : Collection → Collection × Resp) (ident : Identity)
    (c : Collection) : Collection × Resp :=
  if check_collection_ownership ident c require_owner then body c
  else (c, .forbidden)

/-- Modelled from the spec: the `post_required` decorator (amo.decorators,
not in src) rejects any non-POST request. -/
def post_required (body : Collection → Collection × Resp) (method : String)
    (c : Collection) : Collection × Resp :=
  if method = "POST" then body c else (c, .methodNotAllowed)

/-- The body of `edit` (views.py lines 311-345): a valid POSTed form is saved
and the saved collection's page is the redirect target; anything else
renders.  The forms module is external, so the form is abstracted by the
`formValid` flag and the `formSave` effect. -/
def edit_body (method : String) (formValid : Bool)
    (formSave : Collection → Collection) (c : Collection) :
    Collection × Resp :=
  if method = "POST" && formValid then
    let c2 := formSave c
    (c2, .redirect (get_url_path c2))
  else (c, .render)

/-- `edit`: `owner_required` (owner only) around `edit_body`. -/
def edit (ident : Identity) (method : String) (formValid : Bool)
    (formSave : Collection → Collection) (c : Collection) :
    Collection × Resp :=
  owner_required true (edit_body method formValid formSave) ident c

/-- The body of `edit_addons` (views.py lines 350-370): a valid POSTed
add-ons form is saved into the collection, redirecting to the collection
page; anything else renders. -/
def edit_addons_body (method : String) (formValid : Bool)
    (formSave : Collection → Collection) (c : Collection) :
    Collection × Resp :=
  if method = "POST" && formValid then (formSave c, .redirect (get_url_path c))
  else (c, .render)

/-- `edit_addons`: `owner_required` with `require_owner` false, admitting
listed contributors. -/
def edit_addons (ident : Identity) (method : String) (formValid : Bool)
    (formSave : Collection → Collection) (c : Collection) :
    Collection × Resp :=
  owner_required false (edit_addons_body method formValid formSave) ident c

/-- The body of `edit_contributors` (views.py lines 375-403), the
contributors form abstracted as for `edit`; `newOwner` selects between the
collection page and the edit-contributors page as redirect target. -/
def edit_contributors_body (method : String) (formValid : Bool)
    (formSave : Collection → Collection) (newOwner : Bool) (c : Collection) :
    Collection × Resp :=
  if method = "POST" && formValid then
    let c2 := formSave c
    if newOwner then (c2, .redirect (get_url_path c2))
    else (c2, .redirect (.editContributors c.authorNickname c.slug))
  else (c, .render)

/-- `edit_contributors`: `owner_required` (owner only) around its body. -/
def edit_contributors (ident : Identity) (method : String) (formValid : Bool)
    (formSave : Collection → Collection) (newOwner : Bool) (c : Collection) :
    Collection × Resp :=
  owner_required true
    (edit_contributors_body method formValid formSave newOwner) ident c

/-- `edit_privacy` (views.py lines 406-414): owner-gated and POST-gated
toggle of the listed flag, then a redirect to the collection page. -/
def edit_privacy (ident : Identity) (method : String) (c : Collection) :
    Collection × Resp :=
  owner_required true
    (post_required
      (fun c0 =>
        let c2 := { c0 with listed := !c0.listed }
        (c2, .redirect (get_url_path c2))) method) ident c

/-- The membership actions the URL patterns dispatch into `change_addon`. -/
inductive AddonAction where
  | add
  | remove
deriving DecidableEq, Repr

/-- Modelled from the spec: `Collection.add_addon` (models.py not in src)
inserts the add-on into the membership. -/
def add_addon (c : Collection) (a : Int) : Collection :=
  if c.addons.contains a then c else { c with addons := c.addons ++ [a] }

/-- Modelled from the spec: `Collection.remove_addon` (models.py not in src)
removes the add-on from the membership. -/
def remove_addon (c : Collection) (a : Int) : Collection :=
  { c with addons := c.addons.erase a }

/-- `change_addon` (views.py lines 279-296): the ownership check admits
contributors; the posted `addon_id` is then parsed, a missing key
(`KeyError`) or non-numeric value (`ValueError`) becoming a 400; the add-on
is resolved (404 when absent), the action applied, and a redirect issued to
the ajax list page for ajax requests or to the collection page otherwise. -/
def change_addon (ident : Identity) (addonTable : List Int)
    (post : List (String × String)) (action : AddonAction) (ajax : Bool)
    (c : Collection) : Collection × Resp :=
  if !check_collection_ownership ident c false then (c, .forbidden)
  else
    match post_lookup post "addon_id" with
    | none => (c, .badRequest)
    | some s =>
      match str_to_int s with
      | none => (c, .badRequest)
      | some n =>
        match addonTable.find? (fun a => a == n) with
        | none => (c, .notFound)
        | some a =>
          ((match action with
            | .add => add_addon c a
            | .remove => remove_addon c a),
           .redirect (if ajax then .ajaxList a else get_url_path c))

/-- `collection_alter` (views.py lines 272-276) on the resolved collection:
it delegates to `change_addon`. -/
def collection_alter (ident : Identity) (addonTable : List Int)
    (post : List (String × String)) (action : AddonAction) (ajax : Bool)
    (c : Collection) : Collection × Resp :=
  change_addon ident addonTable post action ajax c

/-- `ajax_collection_alter` (views.py lines 299-306): the posted collection
`id` is parsed (a missing key or non-numeric value becoming a 400), the
collection resolved (404 when absent), and `change_addon` run on it; the
table is returned with that collection replaced by the mutated one. -/
def ajax_collection_alter (ident : Identity) (collTable : List Collection)
    (addonTable : List Int) (post : List (String × String))
    (action : AddonAction) (ajax : Bool) : List Collection × Resp :=
  match post_lookup post "id" with
  | none => (collTable, .badRequest)
  | some s =>
    match str_to_int s with
    | none => (collTable, .badRequest)
    | some n =>
      match collTable.find? (fun c => (c.id : Int) == n) with
      | none => (collTable, .notFound)
      | some c =>
        let res := change_addon ident addonTable post action ajax c
        (collTable.map (fun x => if x.id == c.id then res.1 else x), res.2)

/-- `delete` (views.py lines 417-440) on the resolved collection: a
non-owner is forbidden; a POST reads `request.POST` at the key `sure`, whose
absence raises, and only the value `1` deletes the collection (the state
becomes `none`), redirecting to the owner's listing; any other value
redirects back to the collection page; a GET renders the confirmation
page. -/
def delete (ident : Identity) (c : Collection) (method : String)
    (post : List (String × String)) :
    Except String (Option Collection × Resp) :=
  if !check_collection_ownership ident c true then .ok (some c, .forbidden)
  else if method = "POST" then
    match post_lookup post "sure" with
    | none => .error "MultiValueDictKeyError"
    | some s =>
      if s = "1" then .ok (none, .redirect (.userListing c.authorNickname))
      else .ok (some c, .redirect (get_url_path c))
  else .ok (some c, .render)

/-- A collection whose only relevant datum is its id; the vote store keys
rows by ids alone. -/
def mkCollection (cid : Nat) : Collection :=
  ⟨cid, 0, [], "", "", "", "", true, 0, 0, 0, 0, []⟩

/-- Run a sequence of POSTed vote actions (user, collection, direction)
through `collection_vote`; a raised direction error leaves the store as it
was. -/
def runVotes (votes : List VoteRec) :
    List (Nat × Nat × String) → List VoteRec
  | [] => votes
  | a :: rest =>
    match collection_vote votes a.1 (mkCollection a.2.1) "POST" a.2.2 false with
    | .ok res => runVotes res.1 rest
    | .error _ => runVotes votes rest

/-- The rows of the vote store belonging to one (user, collection) pair. -/
def rowsOf (votes : List VoteRec) (u c : Nat) : List VoteRec :=
  votes.filter (matchesPair u c)

/-- The vote the store records for a pair, as the ORM `get` sees it. -/
def voteOf (votes : List VoteRec) (u c : Nat) : Option Int :=
  (votes.find? (matchesPair u c)).map (fun r => r.vote)

/-- The specification's toggle automaton on one pair's vote state. -/
def toggle : Option Int → Int → Option Int
  | none, v => some v
  | some w, v => if w = v then none else some v

/-- The direction values a trace applies to one pair; an invalid direction
raises before touching the store and so contributes nothing. -/
def actionsOf (u c : Nat) (acts : List (Nat × Nat × String)) : List Int :=
  acts.filterMap (fun a => if a.1 = u ∧ a.2.1 = c then voteDict a.2.2 else none)

/-- A sample administrator. -/
def adminIdent : Identity := ⟨999, true⟩

/-- A sample identity owning nothing below. -/
def strangerIdent : Identity := ⟨7, false⟩

/-- A 36-character identifier, as a uuid string. -/
def uuid36 : String := "000000000000000000000000000000000000"

/-- A sample collection: owner 3, contributor 4, subscribers 10, created 1. -/
def collA : Collection :=
  ⟨1, 3, [4], "alice", "favs", uuid36, "nick-a", true, 0, 10, 2, 1, []⟩

/-- A sample collection: owner 3, subscribers 5, created 2. -/
def collB : Collection :=
  ⟨2, 3, [], "alice", "more", "u-b", "nick-b", true, 0, 5, 1, 2, []⟩

/-- Sample membership rows for the notes generator. -/
def notesTable : List CollectionAddonRec :=
  [⟨1, 5, some "great"⟩, ⟨1, 6, none⟩, ⟨2, 5, some "other"⟩]

/-- `find?` returns the head of the filtered list. -/
theorem find?_eq_head_filter (p : α → Bool) (l : List α) :
    l.find? p = (l.filter p).head? := by
  induction l with
  | nil => rfl
  | cons a l ih =>
    cases h : p a
    · rw [List.find?_cons_of_neg _ (by simp [h]),
          List.filter_cons_of_neg (by simp [h]), ih]
    · rw [List.find?_cons_of_pos _ h, List.filter_cons_of_pos h]
      rfl

/-- Erasing the first `p`-row drops the head of the `p`-filtered list. -/
theorem filter_eraseP_self (p : α → Bool) (l : List α) :
    (l.eraseP p).filter p = (l.filter p).tail := by
  induction l with
  | nil => rfl
  | cons a l ih =>
    cases h : p a
    · simp [List.eraseP_cons, List.filter_cons, h, ih]
    · simp [List.eraseP_cons, List.filter_cons, h]

/-- Erasing the first `p`-row does not touch the rows of a predicate `q`
disjoint from `p`. -/
theorem filter_eraseP_other (p q : α → Bool)
    (hpq : ∀ x, p x = true → q x = false) (l : List α) :
    (l.eraseP p).filter q = l.filter q := by
  induction l with
  | nil => rfl
  | cons a l ih =>
    cases h : p a
    · simp [List.eraseP_cons, List.filter_cons, h, ih]
    · simp [List.eraseP_cons, List.filter_cons, h, hpq a h]

/-- Updating the first `p`-row rewrites the head of the `p`-filtered list,
provided `f` preserves `p`. -/
theorem filter_updateFirst_self (p : α → Bool) (f : α → α)
    (hf : ∀ x, p x = true → p (f x) = true) (l : List α) :
    (updateFirst p f l).filter p =
      match l.filter p with
      | [] => []
      | r :: rs => f r :: rs := by
  induction l with
  | nil => rfl
  | cons a l ih =>
    cases h : p a
    · simp [updateFirst, List.filter_cons, h, ih]
    · simp [updateFirst, List.filter_cons, h, hf a h]

/-- Updating the first `p`-row does not touch the rows of a predicate `q`
disjoint from `p` and invariant under `f`. -/
theorem filter_updateFirst_other (p q : α → Bool) (f : α → α)
    (hpq : ∀ x, p x = true → q x = false) (hqf : ∀ x, q (f x) = q x)
    (l : List α) : (updateFirst p f l).filter q = l.filter q := by
  induction l with
  | nil => rfl
  | cons a l ih =>
    cases h : p a
    · simp [updateFirst, List.filter_cons, h, ih]
    · simp [updateFirst, List.filter_cons, h, hqf a, hpq a h]

/-- A freshly built vote row belongs to its own pair. -/
theorem matchesPair_mk (u c : Nat) (v : Int) :
    matchesPair u c ⟨u, c, v⟩ = true := by
  simp [matchesPair]

/-- A row of one pair never belongs to a different pair. -/
theorem matchesPair_other {u c u' c' : Nat} (h : ¬(u' = u ∧ c' = c))
    (r : VoteRec) (hr : matchesPair u c r = true) :
    matchesPair u' c' r = false := by
  simp only [matchesPair, Bool.and_eq_true, beq_iff_eq] at hr
  obtain ⟨hu, hc⟩ := hr
  subst hu; subst hc
  by_cases h1 : r.user = u'
  · have h2 : ¬ r.collection = c' := fun h2 => h ⟨h1.symm, h2.symm⟩
    simp [matchesPair, h2]
  · simp [matchesPair, h1]

/-- Changing the vote value of a row keeps its pair. -/
theorem matchesPair_setVote (u c : Nat) (v : Int) (r : VoteRec) :
    matchesPair u c { r with vote := v } = matchesPair u c r := by
  simp [matchesPair]

/-- How one vote step rewrites the acted pair's rows: create on empty,
delete on equal value, update on different value. -/
theorem rowsOf_voteStep_self (votes : List VoteRec) (u c : Nat) (v : Int)
    (hinv : (rowsOf votes u c).length ≤ 1) :
    rowsOf (voteStep votes u c v) u c =
      match rowsOf votes u c with
      | [] => [⟨u, c, v⟩]
      | r :: _ => if r.vote = v then [] else [{ r with vote := v }] := by
  unfold voteStep
  rw [find?_eq_head_filter]
  cases hrows : votes.filter (matchesPair u c) with
  | nil =>
    simp only [List.head?_nil]
    have : rowsOf votes u c = [] := hrows
    rw [this]
    simp [rowsOf, List.filter_append, hrows, List.filter_cons, matchesPair_mk]
  | cons r t =>
    have hrt : rowsOf votes u c = r :: t := hrows
    have ht : t = [] := by
      rw [hrt] at hinv
      simp only [List.length_cons] at hinv
      exact List.eq_nil_of_length_eq_zero (Nat.le_zero.mp (Nat.le_of_succ_le_succ hinv))
    subst ht
    simp only [List.head?_cons]
    rw [hrt]
    cases hv : r.vote == v
    · have hne : ¬ r.vote = v := by simpa using hv
      simp only [hv, Bool.false_eq_true, if_neg, ite_false]
      rw [if_neg hne]
      have := filter_updateFirst_self (matchesPair u c)
        (fun x => { x with vote := v })
        (fun x hx => by rw [matchesPair_setVote]; exact hx) votes
      unfold rowsOf
      rw [this]
      rw [show votes.filter (matchesPair u c) = [r] from hrt]
    · have heq : r.vote = v := by simpa using hv
      simp only [hv, ite_true]
      rw [if_pos heq]
      unfold rowsOf
      rw [filter_eraseP_self, show votes.filter (matchesPair u c) = [r] from hrt]
      rfl

/-- A vote step leaves every other pair's rows untouched. -/
theorem rowsOf_voteStep_other (votes : List VoteRec) (u c u' c' : Nat)
    (v : Int) (h : ¬(u' = u ∧ c' = c)) :
    rowsOf (voteStep votes u c v) u' c' = rowsOf votes u' c' := by
  unfold voteStep
  cases hf : votes.find? (matchesPair u c) with
  | none =>
    unfold rowsOf
    rw [List.filter_append]
    rw [List.filter_cons_of_neg
      (by simp [matchesPair_other h ⟨u, c, v⟩ (matchesPair_mk u c v)])]
    simp
  | some cv =>
    cases hv : cv.vote == v
    · simp only [hv, Bool.false_eq_true, ite_false]
      exact filter_updateFirst_other (matchesPair u c) (matchesPair u' c')
        (fun x => { x with vote := v })
        (fun x hx => matchesPair_other h x hx)
        (fun x => matchesPair_setVote u' c' v x) votes
    · simp only [hv, ite_true]
      exact filter_eraseP_other (matchesPair u c) (matchesPair u' c')
        (fun x hx => matchesPair_other h x hx) votes

/-- `voteOf` through the head of the pair's rows. -/
theorem voteOf_eq_head (votes : List VoteRec) (u c : Nat) :
    voteOf votes u c = ((rowsOf votes u c).head?).map (fun r => r.vote) := by
  unfold voteOf rowsOf
  rw [find?_eq_head_filter]

/-- A vote step acts on the pair's recorded vote as the toggle automaton. -/
theorem voteOf_voteStep_self (votes : List VoteRec) (u c : Nat) (v : Int)
    (hinv : (rowsOf votes u c).length ≤ 1) :
    voteOf (voteStep votes u c v) u c = toggle (voteOf votes u c) v := by
  rw [voteOf_eq_head, voteOf_eq_head, rowsOf_voteStep_self votes u c v hinv]
  cases hrows : rowsOf votes u c with
  | nil => simp [toggle]
  | cons r t =>
    by_cases hv : r.vote = v
    · simp [hv, toggle]
    · simp [hv, toggle]

/-- A vote step leaves every other pair's recorded vote untouched. -/
theorem voteOf_voteStep_other (votes : List VoteRec) (u c u' c' : Nat)
    (v : Int) (h : ¬(u' = u ∧ c' = c)) :
    voteOf (voteStep votes u c v) u' c' = voteOf votes u' c' := by
  rw [voteOf_eq_head, voteOf_eq_head, rowsOf_voteStep_other votes u c u' c' v h]

/-- A vote step preserves the at-most-one-row invariant. -/
theorem inv_voteStep (votes : List VoteRec) (u c : Nat) (v : Int)
    (hinv : ∀ u' c', (rowsOf votes u' c').length ≤ 1) :
    ∀ u' c', (rowsOf (voteStep votes u c v) u' c').length ≤ 1 := by
  intro u' c'
  by_cases h : u' = u ∧ c' = c
  · obtain ⟨rfl, rfl⟩ := h
    rw [rowsOf_voteStep_self votes u' c' v (hinv u' c')]
    cases hrows : rowsOf votes u' c' with
    | nil => simp
    | cons r t => by_cases hv : r.vote = v <;> simp [hv]
  · rw [rowsOf_voteStep_other votes u c u' c' v h]
    exact hinv u' c'

/-- Running a trace of POSTed votes preserves the at-most-one-row invariant
and refines, pair by pair, the fold of the toggle automaton over the pair's
actions. -/
theorem runVotes_spec (acts : List (Nat × Nat × String)) :
    ∀ votes : List VoteRec, (∀ u c, (rowsOf votes u c).length ≤ 1) →
      (∀ u c, (rowsOf (runVotes votes acts) u c).length ≤ 1) ∧
      (∀ u c, voteOf (runVotes votes acts) u c
        = (actionsOf u c acts).foldl toggle (voteOf votes u c)) := by
  induction acts with
  | nil =>
    intro votes hinv
    exact ⟨hinv, fun u c => by simp [runVotes, actionsOf]⟩
  | cons a rest ih =>
    intro votes hinv
    obtain ⟨u0, c0, d⟩ := a
    cases hd : voteDict d with
    | none =>
      have hrun : runVotes votes ((u0, c0, d) :: rest) = runVotes votes rest := by
        simp [runVotes, collection_vote, hd]
      have hact : ∀ u c,
          actionsOf u c ((u0, c0, d) :: rest) = actionsOf u c rest := by
        intro u c
        by_cases hp : u0 = u ∧ c0 = c
        · simp [actionsOf, List.filterMap_cons, hp, hd]
        · simp [actionsOf, List.filterMap_cons, hp]
      obtain ⟨h1, h2⟩ := ih votes hinv
      rw [hrun]
      exact ⟨h1, fun u c => by rw [h2 u c, hact u c]⟩
    | some v =>
      have hrun : runVotes votes ((u0, c0, d) :: rest)
          = runVotes (voteStep votes u0 c0 v) rest := by
        simp [runVotes, collection_vote, hd, mkCollection]
      have hinv2 := inv_voteStep votes u0 c0 v hinv
      obtain ⟨h1, h2⟩ := ih (voteStep votes u0 c0 v) hinv2
      rw [hrun]
      refine ⟨h1, fun u c => ?_⟩
      rw [h2 u c]
      by_cases hp : u0 = u ∧ c0 = c
      · obtain ⟨rfl, rfl⟩ := hp
        have hact : actionsOf u0 c0 ((u0, c0, d) :: rest)
            = v :: actionsOf u0 c0 rest := by
          simp [actionsOf, List.filterMap_cons, hd]
        rw [hact, List.foldl_cons,
            voteOf_voteStep_self votes u0 c0 v (hinv u0 c0)]
      · have hact : actionsOf u c ((u0, c0, d) :: rest)
            = actionsOf u c rest := by
          simp [actionsOf, List.filterMap_cons, hp]
        have hp2 : ¬(u = u0 ∧ c = c0) := fun h => hp ⟨h.1.symm, h.2.symm⟩
        rw [hact, voteOf_voteStep_other votes u0 c0 u c v hp2]

/-- When the toggle fold over a pair's actions ends in a recorded vote, the
last action of the pair carries exactly that value. -/
theorem toggle_foldl_getLast (l : List Int) (v : Int)
    (h : l.foldl toggle none = some v) : l.getLast? = some v := by
  rcases List.eq_nil_or_concat l with rfl | ⟨l2, a, rfl⟩
  · simp [List.foldl_nil] at h
  · rw [List.concat_eq_append, List.foldl_append, List.foldl_cons,
        List.foldl_nil] at h
    have hv : a = v := by
      cases hs : l2.foldl toggle none with
      | none => rw [hs] at h; simpa [toggle] using h
      | some w =>
        rw [hs] at h
        by_cases hw : w = a
        · simp [toggle, hw] at h
        · simpa [toggle, hw] using h
    rw [List.concat_eq_append, List.getLast?_concat, hv]

/-- C1: for every (user, collection) pair, a POST with direction up or down
drives the toggle state machine of `collection_vote`: no-vote creates a row
whose value is +1 for up and -1 for down, an equal existing row is deleted
(cancel), an opposite existing row is updated to the new value (flip), other
pairs are untouched; a non-POST request changes nothing and redirects to the
collection's canonical URL. -/
theorem collection_vote_toggle_machine (votes : List VoteRec) (u : Nat)
    (coll : Collection) (d : String) (ajax : Bool)
    (hd : d = "up" ∨ d = "down")
    (hinv : (rowsOf votes u coll.id).length ≤ 1) :
    (∀ m, m ≠ "POST" →
      collection_vote votes u coll m d ajax
        = .ok (votes, .redirect (get_url_path coll))) ∧
    (∃ votes2 resp,
      collection_vote votes u coll "POST" d ajax = .ok (votes2, resp) ∧
      (rowsOf votes u coll.id = [] →
        rowsOf votes2 u coll.id = [⟨u, coll.id, if d = "up" then 1 else -1⟩]) ∧
      (∀ r, rowsOf votes u coll.id = [r] →
        r.vote = (if d = "up" then 1 else -1) →
        rowsOf votes2 u coll.id = []) ∧
      (∀ r, rowsOf votes u coll.id = [r] →
        r.vote ≠ (if d = "up" then 1 else -1) →
        rowsOf votes2 u coll.id = [{ r with vote := if d = "up" then 1 else -1 }]) ∧
      (∀ u' c', ¬(u' = u ∧ c' = coll.id) →
        rowsOf votes2 u' c' = rowsOf votes u' c')) := by
  have hv : voteDict d = some (if d = "up" then 1 else -1) := by
    rcases hd with rfl | rfl <;> simp [voteDict, vote_values]
  constructor
  · intro m hm
    simp [collection_vote, hm]
  · refine ⟨voteStep votes u coll.id (if d = "up" then 1 else -1),
      (if ajax then Resp.httpOk else Resp.redirect (get_url_path coll)),
      ?_, ?_, ?_, ?_, ?_⟩
    · simp [collection_vote, hv]
    · intro h0
      rw [rowsOf_voteStep_self votes u coll.id _ hinv, h0]
    · intro r hr hveq
      rw [rowsOf_voteStep_self votes u coll.id _ hinv, hr]
      simp [hveq]
    · intro r hr hvne
      rw [rowsOf_voteStep_self votes u coll.id _ hinv, hr]
      simp [hvne]
    · intro u' c' hne
      exact rowsOf_voteStep_other votes u coll.id u' c' _ hne

/-- C1 witness: on a concrete GET request the store is untouched and the
response redirects to the collection page. -/
theorem collection_vote_toggle_machine_witness :
    collection_vote [] 0 (mkCollection 0) "GET" "up" false
      = Except.ok ([], Resp.redirect (get_url_path (mkCollection 0))) :=
  (collection_vote_toggle_machine [] 0 (mkCollection 0) "up" false
    (Or.inl rfl) (by decide)).1 "GET" (by decide)

/-- C2 counterexample: after the reachable trace up-then-up of one pair the
store holds no row for that pair, so the stronger phrasing that exactly one
vote record exists per (user, collection) at all times is false. -/
theorem vote_exactly_one_counterexample :
    runVotes [] [(0, 0, "up"), (0, 0, "up")] = [] ∧
    (rowsOf (runVotes [] [(0, 0, "up"), (0, 0, "up")]) 0 0).length ≠ 1 := by
  decide

/-- C2 (amended): after any sequence of vote operations from the empty
store, every pair has at most one vote row, the recorded vote is the fold of
the toggle automaton over the pair's actions, and when a row exists its
value is the direction value of the pair's latest (necessarily
non-cancelling) action. -/
theorem vote_store_invariant (acts : List (Nat × Nat × String)) (u c : Nat) :
    (rowsOf (runVotes [] acts) u c).length ≤ 1 ∧
    voteOf (runVotes [] acts) u c = (actionsOf u c acts).foldl toggle none ∧
    (∀ v : Int, voteOf (runVotes [] acts) u c = some v →
      (actionsOf u c acts).getLast? = some v) := by
  have hbase : ∀ u' c', (rowsOf ([] : List VoteRec) u' c').length ≤ 1 := by
    intro u' c'
    simp [rowsOf]
  obtain ⟨h1, h2⟩ := runVotes_spec acts [] hbase
  have h3 : voteOf ([] : List VoteRec) u c = none := by simp [voteOf]
  refine ⟨h1 u c, ?_, ?_⟩
  · rw [h2 u c, h3]
  · intro v hv
    apply toggle_foldl_getLast
    rw [← h3, ← h2 u c]
    exact hv

/-- C2 witness: after up then down by one pair the recorded row carries -1,
the value of the latest action. -/
theorem vote_store_invariant_witness :
    (actionsOf 0 0 [(0, 0, "up"), (0, 0, "down")]).getLast? = some (-1) :=
  (vote_store_invariant [(0, 0, "up"), (0, 0, "down")] 0 0).2.2 (-1) (by decide)

/-- C9: a POST whose direction is neither up nor down makes the dictionary
access of `collection_vote` raise `KeyError` instead of returning a
response; under the precondition the lookup is total and a response is
returned. -/
theorem collection_vote_unknown_direction (votes : List VoteRec) (u : Nat)
    (c : Collection) (d : String) (ajax : Bool) :
    (d ≠ "up" → d ≠ "down" →
      collection_vote votes u c "POST" d ajax = .error "KeyError") ∧
    ((d = "up" ∨ d = "down") →
      ∃ res, collection_vote votes u c "POST" d ajax = .ok res) := by
  constructor
  · intro h1 h2
    have hu : ("up" == d) = false := beq_eq_false_iff_ne.mpr (Ne.symm h1)
    have hdn : ("down" == d) = false := beq_eq_false_iff_ne.mpr (Ne.symm h2)
    have hv : voteDict d = none := by
      simp [voteDict, vote_values, List.find?, hu, hdn]
    simp [collection_vote, hv]
  · rintro (rfl | rfl)
    · exact ⟨(voteStep votes u c.id 1,
        if ajax then Resp.httpOk else Resp.redirect (get_url_path c)),
        by simp [collection_vote, voteDict, vote_values]⟩
    · exact ⟨(voteStep votes u c.id (-1),
        if ajax then Resp.httpOk else Resp.redirect (get_url_path c)),
        by simp [collection_vote, voteDict, vote_values]⟩

/-- C9 witness: a concrete POST with direction `sideways` raises. -/
theorem collection_vote_unknown_direction_witness :
    collection_vote [] 0 (mkCollection 0) "POST" "sideways" false
      = Except.error "KeyError" :=
  (collection_vote_unknown_direction [] 0 (mkCollection 0) "sideways" false).1
    (by decide) (by decide)

/-- C3: an identity that is neither the owner, nor a listed contributor, nor
an admin gets Forbidden from every mutating operation on the collection, the
collection itself staying unchanged: never a silent no-op and never a
not-found result. -/
theorem unauthorized_mutations_forbidden (ident : Identity) (coll : Collection)
    (method : String) (formValid : Bool) (formSave : Collection → Collection)
    (newOwner : Bool) (addonTable : List Int) (post : List (String × String))
    (action : AddonAction) (ajax : Bool)
    (hAdmin : ident.isAdmin = false)
    (hOwner : ident.userId ≠ coll.owner)
    (hContrib : coll.contributors.contains ident.userId = false) :
    edit ident method formValid formSave coll = (coll, .forbidden) ∧
    edit_addons ident method formValid formSave coll = (coll, .forbidden) ∧
    edit_contributors ident method formValid formSave newOwner coll
      = (coll, .forbidden) ∧
    edit_privacy ident method coll = (coll, .forbidden) ∧
    change_addon ident addonTable post action ajax coll = (coll, .forbidden) ∧
    delete ident coll method post = .ok (some coll, .forbidden) := by
  have hbeq : (ident.userId == coll.owner) = false :=
    beq_eq_false_iff_ne.mpr hOwner
  have hmem : ident.userId ∉ coll.contributors := by simpa using hContrib
  have hcc : ∀ ro, check_collection_ownership ident coll ro = false := by
    intro ro
    simp [check_collection_ownership, hAdmin, hbeq, hContrib, hmem]
  refine ⟨?_, ?_, ?_, ?_, ?_, ?_⟩ <;>
    simp [edit, edit_addons, edit_contributors, edit_privacy, change_addon,
          delete, owner_required, hcc]

/-- C3 witness: the concrete stranger is turned away from a concrete
collection's privacy toggle. -/
theorem unauthorized_mutations_forbidden_witness :
    edit_privacy strangerIdent "POST" collA = (collA, Resp.forbidden) :=
  (unauthorized_mutations_forbidden strangerIdent collA "POST" true id true
    [] [] AddonAction.add false (by decide) (by decide) (by decide)).2.2.2.1

/-- C4 counterexample: an authorized POST whose body lacks the `sure` key
raises a key lookup error instead of redirecting back without deleting, so
the claim's absent-flag case is false on the code. -/
theorem delete_missing_sure_counterexample :
    delete adminIdent collA "POST" [] = Except.error "MultiValueDictKeyError" ∧
    delete adminIdent collA "POST" []
      ≠ Except.ok (some collA, Resp.redirect (get_url_path collA)) := by
  constructor
  · rfl
  · intro h
    rw [show delete adminIdent collA "POST" []
        = Except.error "MultiValueDictKeyError" from rfl] at h
    exact Except.noConfusion h

/-- C4 (amended): for an authorized POST to the delete handler, a present
`sure` equal to 1 deletes the collection and redirects to the owner's
listing; a present `sure` with any other value keeps the collection and
redirects to the collection page; an absent `sure` raises an unhandled key
lookup error instead of redirecting. -/
theorem delete_confirmation (ident : Identity) (coll : Collection)
    (post : List (String × String))
    (hauth : check_collection_ownership ident coll true = true) :
    (post_lookup post "sure" = some "1" →
      delete ident coll "POST" post
        = .ok (none, .redirect (.userListing coll.authorNickname))) ∧
    (∀ s, post_lookup post "sure" = some s → s ≠ "1" →
      delete ident coll "POST" post
        = .ok (some coll, .redirect (get_url_path coll))) ∧
    (post_lookup post "sure" = none →
      delete ident coll "POST" post = .error "MultiValueDictKeyError") := by
  refine ⟨?_, ?_, ?_⟩
  · intro h
    simp [delete, hauth, h]
  · intro s h hs
    simp [delete, hauth, h, hs]
  · intro h
    simp [delete, hauth, h]

/-- C4 witness: a concrete confirmed deletion removes the collection and
redirects to the owner's listing page. -/
theorem delete_confirmation_witness :
    delete adminIdent collA "POST" [("sure", "1")]
      = Except.ok (none, Resp.redirect (Url.userListing collA.authorNickname)) :=
  (delete_confirmation adminIdent collA [("sure", "1")] (by decide)).1 (by decide)

/-- C8: an authorized add-on mutation whose body lacks the required
identifier or carries a non-numeric identifier is answered with BadRequest
at once and without any state change, for `change_addon` (behind
`collection_alter`, key `addon_id`) and for `ajax_collection_alter`
(key `id`). -/
theorem malformed_identifier_bad_request (ident : Identity) (coll : Collection)
    (collTable : List Collection) (addonTable : List Int)
    (post : List (String × String)) (action : AddonAction) (ajax : Bool)
    (hauth : check_collection_ownership ident coll false = true) :
    ((post_lookup post "addon_id" = none ∨
      (∃ s, post_lookup post "addon_id" = some s ∧ str_to_int s = none)) →
      change_addon ident addonTable post action ajax coll
        = (coll, .badRequest)) ∧
    ((post_lookup post "id" = none ∨
      (∃ s, post_lookup post "id" = some s ∧ str_to_int s = none)) →
      ajax_collection_alter ident collTable addonTable post action ajax
        = (collTable, .badRequest)) := by
  constructor
  · rintro (h | ⟨s, h1, h2⟩)
    · simp [change_addon, hauth, h]
    · simp [change_addon, hauth, h1, h2]
  · rintro (h | ⟨s, h1, h2⟩)
    · simp [ajax_collection_alter, h]
    · simp [ajax_collection_alter, h1, h2]

/-- C8 witness: a concrete non-numeric `addon_id` is a BadRequest with the
collection unchanged. -/
theorem malformed_identifier_bad_request_witness :
    change_addon adminIdent [] [("addon_id", "xyz")] AddonAction.add false collA
      = (collA, Resp.badRequest) :=
  (malformed_identifier_bad_request adminIdent collA [] []
    [("addon_id", "xyz")] AddonAction.add false (by decide)).1
    (Or.inr ⟨"xyz", by decide, by decide⟩)

/-- C5 divergence, evaluated at the failing input: on a concrete base whose
subscriber order opposes its creation order, the sort field `popular` orders
by descending creation time and not by descending subscriber count, because
the filter's second branch tests `followers`, a key its opts never offer. -/
theorem popular_sort_orders_by_created_not_subscribers :
    CollectionFilter_filter [collA, collB] "popular"
      = orderByDesc (fun c => c.created) [collA, collB] ∧
    CollectionFilter_filter [collA, collB] "popular"
      ≠ orderByDesc (fun c => c.weekly_subscribers) [collA, collB] := by
  decide

/-- C6: a sort key outside a filter's recognized opts makes both pipelines
return exactly the result of filtering with the declared default key
(`popular` for both), not an unordered or empty result. -/
theorem unknown_sort_key_falls_back (k : String) (base : List Collection)
    (abase : List Addon)
    (hc : CollectionFilter_opts.contains k = false)
    (ha : CollectionAddonFilter_opts.contains k = false) :
    collection_listing_filter base (some k)
      = CollectionFilter_filter base "popular" ∧
    collection_detail_filter abase (some k)
      = CollectionAddonFilter_filter abase "popular" := by
  have hkc : k ∉ CollectionFilter_opts := by simpa using hc
  have hka : k ∉ CollectionAddonFilter_opts := by simpa using ha
  constructor
  · simp [collection_listing_filter, BaseFilter_options, hc, hkc]
  · simp [collection_detail_filter, BaseFilter_options, ha, hka]

/-- C6 witness: the concrete unknown key `bogus` gives the default result. -/
theorem unknown_sort_key_falls_back_witness :
    collection_listing_filter [collA, collB] (some "bogus")
      = CollectionFilter_filter [collA, collB] "popular" :=
  (unknown_sort_key_falls_back "bogus" [collA, collB] []
    (by decide) (by decide)).1

/-- C7: the legacy redirect resolves the identifier by uuid exactly when its
length is 36 and by nickname for every other length, redirecting to the
resolved collection's current URL. -/
theorem legacy_redirect_length_heuristic (cols : List Collection)
    (s : String) :
    (s.length = 36 →
      legacy_redirect cols s =
        match cols.find? (fun c => c.uuid == s) with
        | none => Resp.notFound
        | some c => Resp.redirect (get_url_path c)) ∧
    (s.length ≠ 36 →
      legacy_redirect cols s =
        match cols.find? (fun c => c.nickname == s) with
        | none => Resp.notFound
        | some c => Resp.redirect (get_url_path c)) := by
  constructor
  · intro h
    have hk : legacy_key s = "uuid" := by simp [legacy_key, h]
    simp [legacy_redirect, hk, lookup_by]
  · intro h
    have hk : legacy_key s = "nickname" := by simp [legacy_key, h]
    simp [legacy_redirect, hk, lookup_by]

/-- C7 witness: a concrete 36-character identifier resolves by uuid and
redirects to that collection's page. -/
theorem legacy_redirect_length_heuristic_witness :
    legacy_redirect [collA] uuid36 = Resp.redirect (get_url_path collA) :=
  ((legacy_redirect_length_heuristic [collA] uuid36).1 (by decide)).trans
    (by decide)

/-- Folding dict insertion over rows with fresh, pairwise distinct addon ids
appends each id-to-comment pair in order. -/
theorem foldl_dictSet_append (l : List CollectionAddonRec) :
    ∀ m : List (Int × String),
      (∀ r ∈ l, ∀ p ∈ m, p.1 ≠ r.addon_id) →
      (l.map (fun r => r.addon_id)).Nodup →
      l.foldl (fun rv r => dictSet rv r.addon_id (r.comments.getD "")) m
        = m ++ l.map (fun r => (r.addon_id, r.comments.getD "")) := by
  induction l with
  | nil =>
    intro m h1 h2
    simp
  | cons r l ih =>
    intro m hdisj hnodup
    rw [List.map_cons] at hnodup
    have hpair := List.nodup_cons.mp hnodup
    rw [List.foldl_cons]
    have hany : (m.any (fun p => p.1 == r.addon_id)) = false := by
      refine List.any_eq_false.mpr ?_
      intro p hp
      simpa using hdisj r (List.mem_cons_self r l) p hp
    have hstep : dictSet m r.addon_id (r.comments.getD "")
        = m ++ [(r.addon_id, r.comments.getD "")] := by
      simp [dictSet, hany]
    rw [hstep]
    rw [ih (m ++ [(r.addon_id, r.comments.getD "")]) ?_ hpair.2]
    · simp
    · intro r2 hr2 p hp
      rcases List.mem_append.mp hp with hp | hp
      · exact hdisj r2 (List.mem_cons_of_mem _ hr2) p hp
      · have hpv : p = (r.addon_id, r.comments.getD "") := by simpa using hp
        subst hpv
        intro heq
        have heq2 : r.addon_id = r2.addon_id := heq
        refine absurd ?_ hpair.1
        rw [heq2]
        exact List.mem_map_of_mem _ hr2

/-- C10: `get_notes` yields exactly one value, and when the collection's
commented membership rows have pairwise distinct addon ids that value is the
mapping holding precisely the addon ids of the rows with a non-null comment,
each bound to that comment. -/
theorem get_notes_generator (table : List CollectionAddonRec) (coll : Nat)
    (hnodup : ((table.filter
        (fun r => r.collection_id == coll && r.comments.isSome)).map
        (fun r => r.addon_id)).Nodup) :
    get_notes table coll
      = [(table.filter
            (fun r => r.collection_id == coll && r.comments.isSome)).map
          (fun r => (r.addon_id, r.comments.getD ""))] := by
  have hdef : get_notes table coll
      = [(table.filter
            (fun r => r.collection_id == coll && r.comments.isSome)).foldl
          (fun rv r => dictSet rv r.addon_id (r.comments.getD "")) []] := rfl
  rw [hdef, foldl_dictSet_append _ []
    (fun r hr p hp => absurd hp (List.not_mem_nil p)) hnodup]
  simp

/-- C10 witness: on concrete rows the generator yields the single mapping of
the commented rows of collection 1. -/
theorem get_notes_generator_witness :
    get_notes notesTable 1 = [[((5 : Int), "great")]] :=
  (get_notes_generator notesTable 1 (by decide)).trans (by decide)
